import Mathlib

/-
Verification of the CX modular synth engine (CX_ModularSynth.h and CX_Synth.h).

The engine is a pull-based dataflow graph.  A connected upstream module
(`ModuleBase*` in the source) is represented here by its pull interface: the
stream of samples it will produce together with a cursor counting how many
times it has been pulled.  Pulling returns the sample at the cursor and
advances the cursor by one; "a module is pulled exactly once" is then the
statement that its cursor advanced by exactly one.  C++ `double`/`float`
values are modelled by exact rationals; fallible operations (reading the
front of an empty vector, indexing a vector out of bounds) return `Option`,
with `none` marking undefined behaviour in the source.
-/

namespace CXModularSynth

/-- The pull interface of an upstream module: its output sample stream and a
cursor counting the pulls made so far. -/
structure PullSource where
  stream : Nat → ℚ
  pos : Nat

/-- One call of `getNextSample()` on an upstream module: yields the sample at
the cursor and advances the cursor by one. -/
def PullSource.pull (s : PullSource) : ℚ × PullSource :=
  (s.stream s.pos, { s with pos := s.pos + 1 })

/-- `ModuleControlData_t` from CX_ModularSynth.h: `initialized` flag and
`sampleRate` (default-constructed as `false` / `666`). -/
structure ModuleControlData_t where
  initialized : Bool
  sampleRate : ℚ

/-- The default constructor `ModuleControlData_t()`. -/
def ModuleControlData_t.init : ModuleControlData_t :=
  { initialized := false, sampleRate := 666 }

/-- `ModuleParameter`: stored value `_data` and optional patched input
`_input` (a `ModuleBase*` in the source, its pull interface here). -/
structure ModuleParameter where
  _data : ℚ
  _input : Option PullSource

/-- `ModuleParameter::updateValue()`: if an input is patched, pull one sample
from it and store it; otherwise keep the same value. -/
def ModuleParameter.updateValue (p : ModuleParameter) : ModuleParameter :=
  match p._input with
  | none => p
  | some src => { _data := (src.pull).1, _input := some (src.pull).2 }

/-- `ModuleParameter::getValue()`. -/
def ModuleParameter.getValue (p : ModuleParameter) : ℚ :=
  p._data

/-- `ModuleParameter::operator=(double d)`: store `d` and disconnect the
input. -/
def ModuleParameter.assign (p : ModuleParameter) (d : ℚ) : ModuleParameter :=
  { _data := d, _input := none }

/-- Iterated `updateValue()` calls: `paramPullN p n` is the parameter state
after `n` calls. -/
def paramPullN (p : ModuleParameter) : Nat → ModuleParameter
  | 0 => p
  | n + 1 => (paramPullN p n).updateValue

/-- `ModuleBase`: input and output connection lists, control data, and the
module's own pull interface `out` (what `&l` offers when stored as a
parameter's input). -/
structure ModuleBase where
  _inputs : List PullSource
  _outputs : List PullSource
  _data : ModuleControlData_t
  out : PullSource

/-- `ModuleBase::setData(d)`: `*_data = d; _data->initialized = true;`.
(The subsequent `_dataSet` call propagates data to connected modules and
fires `_dataSetEvent`; it does not modify this module's own `_data`.) -/
def ModuleBase.setData (m : ModuleBase) (d : ModuleControlData_t) : ModuleBase :=
  { m with _data := { d with initialized := true } }

/-- `ModuleBase::getData()`. -/
def ModuleBase.getData (m : ModuleBase) : ModuleControlData_t :=
  m._data

/-- `operator>>(ModuleBase& l, ModuleParameter& r)`: the body is exactly
`r._input = &l;`. -/
def connectModuleToParameter (l : ModuleBase) (r : ModuleParameter) :
    ModuleBase × ModuleParameter :=
  (l, { r with _input := some l.out })

/-- `TrivialGenerator`: two parameters, `value` and `step`. -/
structure TrivialGenerator where
  value : ModuleParameter
  step : ModuleParameter

/-- `TrivialGenerator::getNextSample()`:
`value.updateValue(); value.getValue() += step; return value.getValue() - step;`
(`step` is read through `operator double`, which does not advance anything). -/
def TrivialGenerator.getNextSample (g : TrivialGenerator) : ℚ × TrivialGenerator :=
  let v1 := g.value.updateValue
  let v2 : ModuleParameter := { v1 with _data := v1._data + g.step._data }
  (v2._data - g.step._data, { g with value := v2 })

/-- State of a `TrivialGenerator` after `n` calls of `getNextSample()`. -/
def TrivialGenerator.pullN (g : TrivialGenerator) : Nat → TrivialGenerator
  | 0 => g
  | n + 1 => ((TrivialGenerator.pullN g n).getNextSample).2

/-- The sample stream a `TrivialGenerator` emits: `emitted g n` is the value
returned by the `n`-th call of `getNextSample()` (counting from 0). -/
def TrivialGenerator.emitted (g : TrivialGenerator) (n : Nat) : ℚ :=
  ((g.pullN n).getNextSample).1

/-- `FIRFilter::FilterType`. -/
inductive FilterType where
  | LOW_PASS
  | HIGH_PASS
  | USER_DEFINED
deriving DecidableEq

/-- `FIRFilter`: filter type, coefficient count (`int`, -1 before setup),
coefficient vector, input-sample history deque, input connections, control
data. -/
structure FIRFilter where
  _filterType : FilterType
  _coefCount : Int
  _coefficients : List ℚ
  _inputSamples : List ℚ
  _inputs : List PullSource
  _data : ModuleControlData_t

/-- The `FIRFilter()` constructor: `_filterType(LOW_PASS), _coefCount(-1)`,
empty vectors, default control data, nothing connected. -/
def FIRFilter.init : FIRFilter :=
  { _filterType := FilterType.LOW_PASS
    _coefCount := -1
    _coefficients := []
    _inputSamples := []
    _inputs := []
    _data := ModuleControlData_t.init }

/-- `FIRFilter::setup(FilterType filterType, unsigned int coefficientCount)`:
round an even count up to odd, store it in `_coefCount`, and fill
`_inputSamples` with that many zeroes.  (The source does not store the
`filterType` argument.) -/
def FIRFilter.setup (f : FIRFilter) (filterType : FilterType)
    (coefficientCount : Nat) : FIRFilter :=
  let c := if coefficientCount % 2 = 0 then coefficientCount + 1 else coefficientCount
  { f with _coefCount := (c : Int), _inputSamples := List.replicate c 0 }

/-- `FIRFilter::setup(std::vector<double> coefficients)`: user-defined type,
store the coefficients, set `_coefCount` to their number, zero the history. -/
def FIRFilter.setupUser (f : FIRFilter) (coefficients : List ℚ) : FIRFilter :=
  { f with
    _filterType := FilterType.USER_DEFINED
    _coefficients := coefficients
    _coefCount := (coefficients.length : Int)
    _inputSamples := List.replicate coefficients.length 0 }

/-- `FIRFilter::_calcH(int n, double omega)`:
`omega/PI` for `n = 0`, else `omega/PI * sinc(n*omega)`.  `PI` and `sinc`
(defined outside this header) are passed as parameters. -/
def FIRFilter._calcH (sinc : ℚ → ℚ) (piA : ℚ) (n : Int) (omega : ℚ) : ℚ :=
  if n = 0 then omega / piA else omega / piA * sinc ((n : ℚ) * omega)

/-- The HIGH_PASS modulation loop of `setCutoff`:
`for (int i = -_coefCount/2; i <= _coefCount/2; i++) _coefficients[i] *= pow(-1, i);`
`i` is used directly as a `std::vector` index, so `i < 0` or
`i >= _coefficients.size()` is out of bounds (undefined behaviour, `none`).
The `Nat` argument is the number of remaining iterations. -/
def hpModulate (coefs : List ℚ) (i : Int) : Nat → Option (List ℚ)
  | 0 => some coefs
  | fuel + 1 =>
    if 0 ≤ i ∧ i.toNat < coefs.length then
      hpModulate (coefs.set i.toNat (coefs.getD i.toNat 0 * (-1 : ℚ) ^ i)) (i + 1) fuel
    else
      none

/-- `FIRFilter::setCutoff(double cutoff)`: no-op for USER_DEFINED; otherwise
compute `omega = PI * cutoff / (sampleRate / 2)`, rebuild the coefficient
vector from `_calcH(i, omega)` for `i` from `-_coefCount/2` to `_coefCount/2`
(C++ `int` division truncates toward zero, hence `Int.div`), and for
HIGH_PASS run the sign-modulation loop over the same index range. -/
def FIRFilter.setCutoff (sinc : ℚ → ℚ) (piA : ℚ) (f : FIRFilter)
    (cutoff : ℚ) : Option FIRFilter :=
  if f._filterType = FilterType.USER_DEFINED then
    some f
  else
    let omega := piA * cutoff / (f._data.sampleRate / 2)
    let lo := Int.tdiv (-f._coefCount) 2
    let hi := Int.tdiv f._coefCount 2
    let n := (hi + 1 - lo).toNat
    let coefs := (List.range n).map (fun k => FIRFilter._calcH sinc piA (lo + (k : Int)) omega)
    if f._filterType = FilterType.HIGH_PASS then
      match hpModulate coefs lo n with
      | none => none
      | some cs => some { f with _coefficients := cs }
    else
      some { f with _coefficients := coefs }

/-- The convolution loop of `FIRFilter::getNextSample()`:
`for (int i = 0; i < _coefCount; i++) y_n += _inputSamples[i] * _coefficients[i];`
accumulated left to right; an index beyond either container is out of bounds
(undefined behaviour, `none`). -/
def dotTo (samples coefs : List ℚ) : Nat → Option ℚ
  | 0 => some 0
  | n + 1 => do
    let prev ← dotTo samples coefs n
    let s ← samples[n]?
    let c ← coefs[n]?
    some (prev + s * c)

/-- `FIRFilter::getNextSample()`: pop the front of the history deque
(undefined on an empty deque), push one sample pulled from `_inputs.front()`
(undefined when no input is connected), then return the convolution of the
history with the coefficients. -/
def FIRFilter.getNextSample (f : FIRFilter) : Option (ℚ × FIRFilter) :=
  match f._inputSamples, f._inputs with
  | [], _ => none
  | _ :: _, [] => none
  | _ :: rest, src :: srcs =>
    let (x, src') := src.pull
    let samples := rest ++ [x]
    match dotTo samples f._coefficients f._coefCount.toNat with
    | none => none
    | some y => some (y, { f with _inputSamples := samples, _inputs := src' :: srcs })

/-- `RCFilter`: internal state `_v0`, the `breakpoint` parameter, input
connections, control data. -/
structure RCFilter where
  _v0 : ℚ
  breakpoint : ModuleParameter
  _inputs : List PullSource
  _data : ModuleControlData_t

/-- `RCFilter::_update(double v1)`:
`breakpoint.updateValue(); _v0 += (v1 - _v0) * 2 * PI * breakpoint.getValue() / _data->sampleRate; return _v0;` -/
def RCFilter._update (piA : ℚ) (f : RCFilter) (v1 : ℚ) : ℚ × RCFilter :=
  let bp := f.breakpoint.updateValue
  let v0 := f._v0 + (v1 - f._v0) * 2 * piA * bp.getValue / f._data.sampleRate
  (v0, { f with _v0 := v0, breakpoint := bp })

/-- `RCFilter::getNextSample()`: with an input connected, pull one sample
from it and run `_update`; otherwise return 0 (without touching any state). -/
def RCFilter.getNextSample (piA : ℚ) (f : RCFilter) : ℚ × RCFilter :=
  match f._inputs with
  | [] => (0, f)
  | src :: rest =>
    let (v1, src') := src.pull
    RCFilter._update piA { f with _inputs := src' :: rest } v1

end CXModularSynth

namespace CXSynth

open CXModularSynth (PullSource)

/-- `ModuleControlData_t` from CX_Synth.h: adds the `oversampling` factor
(default-constructed as `false` / `666` / `1`). -/
structure ModuleControlData_t where
  initialized : Bool
  sampleRate : ℚ
  oversampling : Nat

/-- The default constructor `ModuleControlData_t()`. -/
def ModuleControlData_t.init : ModuleControlData_t :=
  { initialized := false, sampleRate := 666, oversampling := 1 }

/-- `GenericOutput` from CX_Synth.h: input connections and control data. -/
structure GenericOutput where
  _inputs : List PullSource
  _data : ModuleControlData_t

/-- The summation loop of `GenericOutput::getNextSample()`:
`for (unsigned int i = 0; i < _data->oversampling; i++) sum += _inputs.front()->getNextSample();` -/
def sumPulls (src : PullSource) (sum : ℚ) : Nat → ℚ × PullSource
  | 0 => (sum, src)
  | k + 1 =>
    let (x, s') := src.pull
    sumPulls s' (sum + x) k

/-- `GenericOutput::getNextSample()` (CX_Synth.h): return 0 when no input is
connected; otherwise pull the front input `oversampling` times and return the
sum divided by `oversampling`. -/
def GenericOutput.getNextSample (g : GenericOutput) : ℚ × GenericOutput :=
  match g._inputs with
  | [] => (0, g)
  | src :: rest =>
    let (sum, src') := sumPulls src 0 g._data.oversampling
    (sum / (g._data.oversampling : ℚ), { g with _inputs := src' :: rest })

end CXSynth

namespace CXModularSynth

/-- A FIRFilter after `setup(LOW_PASS, 3)` with no input connected. -/
def fir1 : FIRFilter :=
  FIRFilter.init.setup FilterType.LOW_PASS 3

/-- An RCFilter with nonzero internal state `_v0 = 1` and no input
connected (sample rate 44100, breakpoint 2000, unpatched). -/
def rc1 : RCFilter :=
  { _v0 := 1
    breakpoint := ⟨2000, none⟩
    _inputs := []
    _data := { initialized := true, sampleRate := 44100 } }

/-- A FIRFilter in the HIGH_PASS state with `_coefCount = 3` and an
initialized sample rate of 44100, before any cutoff has been set. -/
def fir2 : FIRFilter :=
  { _filterType := FilterType.HIGH_PASS
    _coefCount := 3
    _coefficients := []
    _inputSamples := [0, 0, 0]
    _inputs := []
    _data := { initialized := true, sampleRate := 44100 } }

/-- The TrivialGenerator of claim C3: `value = 0`, `step = 1`, neither
parameter patched. -/
def c3gen : TrivialGenerator :=
  { value := ⟨0, none⟩, step := ⟨1, none⟩ }

/-- The pull interface of `c3gen`: its emitted sample stream, no pulls yet. -/
def c3src : PullSource :=
  ⟨c3gen.emitted, 0⟩

/-- A FIRFilter after `setup(LOW_PASS, 3)` with an input connected but no
coefficients installed (`setCutoff` never called, so `_coefficients` is
empty while `_coefCount = 3`). -/
def fir4 : FIRFilter :=
  { FIRFilter.init.setup FilterType.LOW_PASS 3 with
      _inputs := [⟨fun _ => 0, 0⟩] }

/-- A fully configured FIRFilter: 3 coefficients, zeroed history of length 3,
one input connected emitting the constant stream 1. -/
def fir4w : FIRFilter :=
  { _filterType := FilterType.USER_DEFINED
    _coefCount := 3
    _coefficients := [1/2, 1/3, 1/4]
    _inputSamples := [0, 0, 0]
    _inputs := [⟨fun _ => 1, 0⟩]
    _data := { initialized := true, sampleRate := 44100 } }

/-- An RCFilter with an input connected (constant stream 7) and breakpoint
patched to a constant stream 5, sample rate 100. -/
def rc5w : RCFilter :=
  { _v0 := 0
    breakpoint := ⟨0, some ⟨fun _ => 5, 0⟩⟩
    _inputs := [⟨fun _ => 7, 0⟩]
    _data := { initialized := true, sampleRate := 100 } }

end CXModularSynth

namespace CXSynth

/-- A GenericOutput with oversampling 2 and an input connected emitting the
stream 0, 1, 2, 3, ... -/
def g10w : GenericOutput :=
  { _inputs := [⟨fun n => (n : ℚ), 0⟩]
    _data := { initialized := true, sampleRate := 44100, oversampling := 2 } }

end CXSynth

namespace CXModularSynth

/-- C9: `setData(d)` always leaves the module's configuration with
`initialized == true` and `sampleRate == d.sampleRate`, even when the
argument's `initialized` flag is false. -/
theorem setData_marks_initialized (m : ModuleBase) (d : ModuleControlData_t) :
    ((m.setData d).getData).initialized = true ∧
    ((m.setData d).getData).sampleRate = d.sampleRate :=
  ⟨rfl, rfl⟩

/-- C7: assigning a literal to a ModuleParameter stores the literal and
clears any installed patch, so every later `updateValue()` call (any number
of iterations) leaves the state unchanged, with the stored value equal to
the literal and no module connected to advance. -/
theorem assign_literal_clears_patch (p : ModuleParameter) (d : ℚ) (n : Nat) :
    (p.assign d)._data = d ∧
    (p.assign d)._input = none ∧
    paramPullN (p.assign d) n = p.assign d := by
  refine ⟨rfl, rfl, ?_⟩
  induction n with
  | zero => rfl
  | succ n ih =>
    rw [paramPullN, ih]
    rfl

/-- C8: `module >> parameter` only installs the module as the parameter's
patch source (replacing any prior patch); the module is returned unchanged
(no pull, no change to its inputs or outputs lists or data) and the
parameter's stored value is unchanged. -/
theorem connect_module_to_parameter_frame (l : ModuleBase) (r : ModuleParameter) :
    (connectModuleToParameter l r).1 = l ∧
    ((connectModuleToParameter l r).2)._data = r._data ∧
    ((connectModuleToParameter l r).2)._input = some l.out :=
  ⟨rfl, rfl, rfl⟩

/-- C6: `setup(filterType, coefficientCount)` rounds an even count up to the
next odd number and leaves an odd count unchanged, stores it as
`_coefCount`, and fills the input-sample history with exactly that many
zeroes. -/
theorem setup_rounds_to_odd_and_fills_history (f : FIRFilter) (t : FilterType) (n : Nat) :
    (f.setup t n)._coefCount = ((if n % 2 = 0 then n + 1 else n : Nat) : Int) ∧
    Odd (f.setup t n)._coefCount ∧
    (f.setup t n)._inputSamples = List.replicate (if n % 2 = 0 then n + 1 else n) 0 ∧
    (f.setup t n)._inputSamples.length = (if n % 2 = 0 then n + 1 else n) := by
  refine ⟨rfl, ?_, rfl, by simp [FIRFilter.setup]⟩
  rw [Int.odd_iff]
  show ((if n % 2 = 0 then n + 1 else n : Nat) : Int) % 2 = 1
  by_cases h : n % 2 = 0 <;> simp only [h, if_true, if_false] <;> omega

/-- C1 (failing input): `FIRFilter::getNextSample()` with no input connected
executes `_inputs.front()` on an empty vector — undefined behaviour, `none`
in this model — instead of the claimed constant-zero-input output; and
`RCFilter::getNextSample()` with no input connected returns 0 without
running the state update, which differs from the constant-zero-input
output `_update(0)` whenever `_v0 ≠ 0`. -/
theorem fir_unconnected_input_is_undefined :
    fir1.getNextSample = none ∧
    RCFilter.getNextSample 3 rc1 = (0, rc1) ∧
    (RCFilter._update 3 rc1 0).1 ≠ 0 := by
  refine ⟨rfl, rfl, ?_⟩
  norm_num [RCFilter._update, ModuleParameter.updateValue, ModuleParameter.getValue, rc1]

/-- After `n` pulls, `c3gen` holds `value = n`, `step = 1`. -/
theorem trivialGen_pullN_state (n : Nat) :
    c3gen.pullN n = { value := ⟨(n : ℚ), none⟩, step := ⟨1, none⟩ } := by
  induction n with
  | zero => simp [c3gen, TrivialGenerator.pullN]
  | succ n ih =>
    rw [TrivialGenerator.pullN, ih]
    simp [TrivialGenerator.getNextSample, ModuleParameter.updateValue]

/-- The `n`-th call of `getNextSample()` on `c3gen` returns `n`. -/
theorem trivialGen_emits_naturals (n : Nat) : c3gen.emitted n = n := by
  unfold TrivialGenerator.emitted
  rw [trivialGen_pullN_state]
  simp [TrivialGenerator.getNextSample, ModuleParameter.updateValue]

/-- State of the patched parameter of claim C3 after `n + 1` calls of
`updateValue()`: the stored value is the `n`-th generator output and the
patch cursor has advanced by exactly one per call. -/
theorem c3param_state (d : ℚ) (n : Nat) :
    paramPullN ⟨d, some c3src⟩ (n + 1) =
      ⟨c3gen.emitted n, some ⟨c3gen.emitted, n + 1⟩⟩ := by
  induction n with
  | zero => rfl
  | succ n ih =>
    rw [paramPullN, ih]
    rfl

/-- C3: a ModuleParameter patched to a TrivialGenerator with `value = 0` and
`step = 1` (neither itself patched) reads `n` after the `n`-th call of
`updateValue()` (counting from 0), the patch source having been advanced
exactly once per call (cursor `n + 1` after `n + 1` calls); an unpatched
`updateValue()` changes nothing. -/
theorem parameter_patched_to_trivialgen_counts (d : ℚ) (n : Nat) :
    (paramPullN ⟨d, some c3src⟩ (n + 1)).getValue = (n : ℚ) ∧
    (paramPullN ⟨d, some c3src⟩ (n + 1))._input = some ⟨c3gen.emitted, n + 1⟩ ∧
    ModuleParameter.updateValue ⟨d, none⟩ = ⟨d, none⟩ := by
  refine ⟨?_, ?_, rfl⟩
  · show (paramPullN ⟨d, some c3src⟩ (n + 1))._data = (n : ℚ)
    rw [c3param_state]
    exact trivialGen_emits_naturals n
  · rw [c3param_state]

/-- C2 (failing input): on a HIGH_PASS FIRFilter with `_coefCount = 3`,
`setCutoff` runs its sign-modulation loop from index `-_coefCount/2 = -1`,
indexing `_coefficients[-1]` — out of bounds on a `std::vector` — so the
call is undefined (for every `sinc`, `PI` and cutoff frequency). -/
theorem setcutoff_highpass_out_of_bounds (sinc : ℚ → ℚ) (piA cutoff : ℚ) :
    FIRFilter.setCutoff sinc piA fir2 cutoff = none := by
  rfl

/-- The convolution loop computes the sum of pointwise products over the
first `n` positions when both containers have at least `n` elements. -/
theorem dotTo_eq (samples coefs : List ℚ) (n : Nat)
    (hs : n ≤ samples.length) (hc : n ≤ coefs.length) :
    dotTo samples coefs n =
      some (∑ i in Finset.range n, samples.getD i 0 * coefs.getD i 0) := by
  induction n with
  | zero => simp [dotTo]
  | succ n ih =>
    have hs' : n < samples.length := Nat.lt_of_lt_of_le (Nat.lt_succ_self n) hs
    have hc' : n < coefs.length := Nat.lt_of_lt_of_le (Nat.lt_succ_self n) hc
    rw [dotTo, ih (Nat.le_of_succ_le hs) (Nat.le_of_succ_le hc)]
    rw [List.getElem?_eq_getElem hs', List.getElem?_eq_getElem hc']
    simp [Finset.sum_range_succ, List.getD_eq_getElem?_getD,
      List.getElem?_eq_getElem hs', List.getElem?_eq_getElem hc']

/-- C4 (counterexample): a FIRFilter set up with coefficient count 3 via
`setup(LOW_PASS, 3)`, with an input connected but `setCutoff` never called,
has an empty coefficient vector, and `getNextSample()` reads
`_coefficients[0]` out of bounds — undefined, not the claimed dot product. -/
theorem fir_setup_without_cutoff_fails : fir4.getNextSample = none := by
  rfl

/-- C4 (amended): for a FIRFilter whose history and coefficient vector both
hold exactly `N` entries and which has an input connected, `getNextSample()`
drops the oldest history sample, appends one freshly pulled input sample
(the input cursor advancing by exactly one), leaves the history at length
`N`, and returns the dot product of the updated history with the
coefficients. -/
theorem fir_step_sliding_window (f : FIRFilter) (src : PullSource)
    (srcs : List PullSource) (N : Nat)
    (hN : f._coefCount = (N : Int))
    (hhist : f._inputSamples.length = N)
    (hcoef : f._coefficients.length = N)
    (hpos : 1 ≤ N)
    (hin : f._inputs = src :: srcs) :
    f.getNextSample =
      some (∑ i in Finset.range N,
          (f._inputSamples.tail ++ [src.stream src.pos]).getD i 0 *
            f._coefficients.getD i 0,
        { f with
            _inputSamples := f._inputSamples.tail ++ [src.stream src.pos]
            _inputs := { src with pos := src.pos + 1 } :: srcs }) ∧
    (f._inputSamples.tail ++ [src.stream src.pos]).length = N := by
  obtain ⟨ft, cc, coefs, hist, ins, data⟩ := f
  simp only at hN hhist hcoef hin ⊢
  subst hN hin
  cases hist with
  | nil => simp at hhist; omega
  | cons h t =>
    simp only [List.length_cons] at hhist
    constructor
    · show FIRFilter.getNextSample ⟨ft, (N : Int), coefs, h :: t, src :: srcs, data⟩ = _
      rw [FIRFilter.getNextSample]
      simp only [PullSource.pull, Int.toNat_natCast]
      rw [dotTo_eq (t ++ [src.stream src.pos]) coefs N
        (by simp; omega) (le_of_eq hcoef.symm)]
      simp [List.tail]
    · simp
      omega

/-- C4 (witness): on the concrete filter `fir4w` (coefficients
`[1/2, 1/3, 1/4]`, zeroed history of length 3, constant-1 input stream),
one call yields `0*(1/2) + 0*(1/3) + 1*(1/4) = 1/4`, the history becomes
`[0, 0, 1]`, and the input cursor moves from 0 to 1. -/
theorem fir_step_sliding_window_witness :
    fir4w.getNextSample =
      some (1/4, { fir4w with
        _inputSamples := [0, 0, 1]
        _inputs := [⟨fun _ => 1, 1⟩] }) := by
  have h := fir_step_sliding_window fir4w ⟨fun _ => 1, 0⟩ [] 3
    rfl rfl rfl (by norm_num) rfl
  rw [h.1]
  norm_num [Finset.sum_range_succ, fir4w]

/-- `updateValue()` advances a patched input's cursor by exactly one and
leaves an unpatched parameter's input empty. -/
theorem updateValue_input_advances (p : ModuleParameter) :
    (p.updateValue)._input = p._input.map (fun s => { s with pos := s.pos + 1 }) := by
  cases h : p._input <;> simp [ModuleParameter.updateValue, h, PullSource.pull]

/-- C5: on an RCFilter with an input connected and initialized control data,
`getNextSample()` re-pulls the `breakpoint` parameter (its patch source, if
any, advancing by exactly one), pulls exactly one fresh input sample, sets
`v0 += (input - v0) * 2 * PI * breakpoint / sampleRate` and returns the
updated `v0`. -/
theorem rc_step (piA : ℚ) (f : RCFilter) (src : PullSource)
    (rest : List PullSource)
    (hin : f._inputs = src :: rest) (hinit : f._data.initialized = true) :
    (RCFilter.getNextSample piA f).1
        = f._v0 + (src.stream src.pos - f._v0) * 2 * piA
            * (f.breakpoint.updateValue).getValue / f._data.sampleRate ∧
    ((RCFilter.getNextSample piA f).2)._v0 = (RCFilter.getNextSample piA f).1 ∧
    ((RCFilter.getNextSample piA f).2).breakpoint._data
        = (f.breakpoint.updateValue)._data ∧
    ((RCFilter.getNextSample piA f).2).breakpoint._input
        = f.breakpoint._input.map (fun s => { s with pos := s.pos + 1 }) ∧
    ((RCFilter.getNextSample piA f).2)._inputs
        = { src with pos := src.pos + 1 } :: rest := by
  obtain ⟨v0, bp, ins, data⟩ := f
  simp only at hin ⊢
  subst hin
  refine ⟨?_, ?_, ?_, ?_, ?_⟩ <;>
    simp [RCFilter.getNextSample, RCFilter._update, PullSource.pull,
      ModuleParameter.getValue, updateValue_input_advances]

/-- C5 (witness): on `rc5w` (v0 = 0, breakpoint patched to the constant
stream 5, input the constant stream 7, sample rate 100, with PI taken as 3),
one call returns `0 + (7-0)*2*3*5/100 = 21/10`, and both the breakpoint's
patch cursor and the input cursor advance from 0 to 1. -/
theorem rc_step_witness :
    (RCFilter.getNextSample 3 rc5w).1 = 21/10 ∧
    ((RCFilter.getNextSample 3 rc5w).2).breakpoint._input = some ⟨fun _ => 5, 1⟩ ∧
    ((RCFilter.getNextSample 3 rc5w).2)._inputs = [⟨fun _ => 7, 1⟩] := by
  have h := rc_step 3 rc5w ⟨fun _ => 7, 0⟩ [] rfl rfl
  refine ⟨?_, ?_, ?_⟩
  · rw [h.1]
    norm_num [rc5w, ModuleParameter.updateValue, ModuleParameter.getValue,
      PullSource.pull]
  · rw [h.2.2.2.1]
    rfl
  · exact h.2.2.2.2

end CXModularSynth

namespace CXSynth

open CXModularSynth (PullSource)

/-- The oversampling loop accumulates `k` successive stream samples and
advances the cursor by exactly `k`. -/
theorem sumPulls_spec (k : Nat) : ∀ (src : PullSource) (a : ℚ),
    sumPulls src a k =
      (a + ∑ i in Finset.range k, src.stream (src.pos + i),
       { src with pos := src.pos + k }) := by
  induction k with
  | zero =>
    intro src a
    simp [sumPulls]
  | succ k ih =>
    intro src a
    rw [sumPulls]
    simp only [PullSource.pull]
    rw [ih]
    refine congrArg₂ Prod.mk ?_ ?_
    · rw [Finset.sum_range_succ', Nat.add_zero]
      have hc : ∀ i ∈ Finset.range k,
          src.stream (src.pos + 1 + i) = src.stream (src.pos + (i + 1)) := by
        intro i _
        congr 1
        omega
      rw [Finset.sum_congr rfl hc, add_assoc, add_comm (src.stream src.pos)]
      simp
    · simp only [PullSource.mk.injEq, true_and]
      omega

/-- C10: a GenericOutput with oversampling `k ≥ 1` and an input connected
pulls the input exactly `k` times (cursor advances by `k`) and returns the
arithmetic mean of those `k` samples; with no input connected it returns 0
and pulls nothing. -/
theorem generic_output_oversampling (g : GenericOutput) (src : PullSource)
    (rest : List PullSource)
    (hk : 1 ≤ g._data.oversampling) (hin : g._inputs = src :: rest) :
    (g.getNextSample).1
        = (∑ i in Finset.range g._data.oversampling, src.stream (src.pos + i))
            / (g._data.oversampling : ℚ) ∧
    (g.getNextSample).2
        = { g with _inputs :=
              { src with pos := src.pos + g._data.oversampling } :: rest } ∧
    GenericOutput.getNextSample { g with _inputs := [] }
        = (0, { g with _inputs := [] }) := by
  obtain ⟨ins, data⟩ := g
  simp only at hin hk ⊢
  subst hin
  refine ⟨?_, ?_, rfl⟩ <;>
    simp [GenericOutput.getNextSample, sumPulls_spec]

/-- C10 (witness): `g10w` (oversampling 2, input stream 0, 1, 2, ...)
returns `(0 + 1)/2 = 1/2` and its input cursor advances from 0 to 2. -/
theorem generic_output_oversampling_witness :
    (g10w.getNextSample).1 = 1/2 ∧
    (g10w.getNextSample).2._inputs = [⟨fun n => (n : ℚ), 2⟩] := by
  have h := generic_output_oversampling g10w ⟨fun n => (n : ℚ), 0⟩ []
    (by norm_num [g10w]) rfl
  constructor
  · rw [h.1]
    norm_num [g10w, Finset.sum_range_succ]
  · rw [h.2.1]
    simp [g10w]

end CXSynth
